import Mathlib

/-!
Shallow embedding of the admission / scheduling / retention core of the
sentry-backend service, together with proofs of the specified properties.

The embedded operations follow these source files:
* `app/middleware/rate_limit.py`  (sliding-window rate limiter)
* `app/services/queue_service.py` (two-lane priority queue, status side-table)
* `app/services/tier_service.py`  (tier capability and quota checks)
* `app/services/scan_service.py`  (job creation and cancellation)
* `app/services/retention_service.py` (retention sweeper)
* `app/workers/scan_worker.py`    (job execution with retry)

Machine times are unix seconds, modelled as `Nat` (rate limiter, which uses
`int(time.time())`) or `Int` (database timestamps).
-/

namespace Sentry

/-- Python's `str.lower()` for the ASCII tier/email strings used here
(character-wise lowercasing). -/
def lowerStr (s : String) : String := ⟨s.data.map Char.toLower⟩

/-! ### Sliding-window rate limiter (`app/middleware/rate_limit.py`) -/

/-- Result triple of `RateLimitMiddleware._check_rate_limit`:
`(allowed, remaining, reset_time)`. -/
structure RateCheckResult where
  allowed : Bool
  remaining : Nat
  resetTime : Nat
  deriving DecidableEq, Repr

/-- `RATE_LIMITS` lookup with the dictionary default
`RATE_LIMITS.get(user_tier.lower(), RATE_LIMITS["free"])`: the value is
`some (limit, window)` for a finite pair and `none` for unlimited
(enterprise). The argument is the already-lowercased tier string. -/
def rateLimitFor (tierLower : String) : Option (Nat × Nat) :=
  if tierLower = "free" then some (100, 3600)
  else if tierLower = "premium" then some (10000, 2592000)
  else if tierLower = "enterprise" then none
  else some (100, 3600)

/-- `zremrangebyscore(key, 0, now - window)`: drop every member whose score
lies in `[0, now - window]`.  All stored scores are nonnegative unix
seconds, so a member survives iff its timestamp exceeds `now - window`
(computed in `Int`, since `now - window` may be negative). -/
def purgeWindow (window now : Nat) (win : Finset Nat) : Finset Nat :=
  win.filter (fun t => (now : Int) - (window : Int) < (t : Int))

/-- One sliding-window check for a finite `(limit, window)` pair, following
`_check_rate_limit`: purge, count, deny when `count ≥ limit` with
`reset_time` the oldest surviving score plus the window, otherwise record
`now` (the sorted-set member is `str(now)`, so recording is set insertion)
and allow with `remaining = limit - (count + 1)`.  Returns the result
triple and the new window contents. -/
def checkRateLimit (limit window : Nat) (win : Finset Nat) (now : Nat) :
    RateCheckResult × Finset Nat :=
  let purged := purgeWindow window now win
  let count := purged.card
  if limit ≤ count then
    let reset := if h : purged.Nonempty then purged.min' h + window else now + window
    (⟨false, 0, reset⟩, purged)
  else
    (⟨true, limit - (count + 1), now + window⟩, insert now purged)

/-- `_check_rate_limit` including the tier lookup: unlimited tiers return
`(True, 999999, 0)` without touching the window store. -/
def checkRateLimitTier (tier : String) (win : Finset Nat) (now : Nat) :
    RateCheckResult × Finset Nat :=
  match rateLimitFor (lowerStr tier) with
  | none => (⟨true, 999999, 0⟩, win)
  | some (limit, window) => checkRateLimit limit window win now

/-- Run a sequence of checks against one subject's window, collecting the
`allowed` flag of each check and the final window contents. -/
def runChecks (limit window : Nat) (win : Finset Nat) :
    List Nat → List Bool × Finset Nat
  | [] => ([], win)
  | t :: ts =>
    let step := checkRateLimit limit window win t
    let rest := runChecks limit window step.2 ts
    (step.1.allowed :: rest.1, rest.2)

/-- The whole `try` block of `_check_rate_limit` can fail (Redis down or
erroring); the `except` branch logs the error and allows the request with
`(True, limit, now + window)`.  The store interaction is modelled as an
`Except`: `.error` is a raised store exception. -/
structure SafeCheckOutcome where
  result : RateCheckResult
  errorLogged : Bool
  deriving DecidableEq, Repr

/-- `_check_rate_limit` with its `try/except` wrapper for a finite pair:
on a store failure the check allows and logs; otherwise it behaves as
`checkRateLimit`. -/
def checkRateLimitSafe (limit window : Nat) (store : Except String (Finset Nat))
    (now : Nat) : SafeCheckOutcome × Option (Finset Nat) :=
  match store with
  | .ok win =>
    (⟨(checkRateLimit limit window win now).1, false⟩,
      some (checkRateLimit limit window win now).2)
  | .error _ => (⟨⟨true, limit, now + window⟩, true⟩, none)

/-- The `dispatch` gate of `RateLimitMiddleware`: the request proceeds when
Redis is unavailable, when the request is unauthenticated, when the user is
an owner, or when the rate-limit check allowed it. -/
def dispatchAllows (redisUp : Bool) (userId : Option String) (isOwner : Bool)
    (check : RateCheckResult) : Bool :=
  if !redisUp then true
  else if userId.isNone then true
  else if isOwner then true
  else check.allowed

/-! ### Two-lane priority queue (`app/services/queue_service.py`)

Each lane is a Redis list written with `LPUSH` (prepend) and read with
`RPOP` (take from the tail), so the head of the Lean list is the most
recently pushed descriptor. -/

/-- The two lanes: `scan_queue:high` (premium/enterprise) and
`scan_queue:normal` (free). -/
inductive Lane
  | high
  | normal
  deriving DecidableEq, Repr

def isHighLane : Lane → Bool
  | .high => true
  | .normal => false

/-- The two Redis lists; descriptors are opaque serialized strings. -/
structure PQueue where
  high : List String
  normal : List String
  deriving DecidableEq, Repr

def emptyQueue : PQueue := ⟨[], []⟩

/-- `LPUSH` into the lane chosen for the entry. -/
def enqueueLane (q : PQueue) : Lane → String → PQueue
  | .high, d => { q with high := d :: q.high }
  | .normal, d => { q with normal := d :: q.normal }

/-- `RPOP`: remove and return the tail (oldest) element of a list. -/
def rpop : List String → Option String × List String
  | [] => (none, [])
  | [x] => (some x, [])
  | x :: y :: xs =>
    let rest := rpop (y :: xs)
    (rest.1, x :: rest.2)

/-- Non-blocking `dequeue_scan` (`timeout = 0`): `RPOP` the high lane
first and fall back to the normal lane; `none` when both are empty. -/
def dequeueScan (q : PQueue) : Option String × PQueue :=
  match rpop q.high with
  | (some d, h) => (some d, ⟨h, q.normal⟩)
  | (none, _) =>
    match rpop q.normal with
    | (some d, n) => (some d, ⟨q.high, n⟩)
    | (none, _) => (none, q)

/-- Perform `n` successive dequeues, collecting the returned descriptors
(stopping early if the queue empties). -/
def drainN : Nat → PQueue → List String
  | 0, _ => []
  | n + 1, q =>
    match dequeueScan q with
    | (some d, q₂) => d :: drainN n q₂
    | (none, _) => []

/-- `normalize_tier`: lowercase the tier string (enum values are already
strings here). -/
def normalizeTier (tier : String) : String := lowerStr tier

/-- Lane selection in `enqueue_scan`: premium/enterprise go to the high
lane, everything else to the normal lane. -/
def laneForTier (tier : String) : Lane :=
  if normalizeTier tier = "premium" ∨ normalizeTier tier = "enterprise"
  then .high else .normal

/-- The `job_data` dict serialized into the queue in `enqueue_scan`,
as an association list of JSON fields.  `enqueuedAt` stands for
`datetime.utcnow().isoformat()`. -/
def scanJobData (scanId userId targetUrl scanMode enqueuedAt : String) :
    List (String × String) :=
  [("scan_id", scanId), ("user_id", userId), ("target_url", targetUrl),
   ("scan_mode", scanMode), ("enqueued_at", enqueuedAt)]

/-! ### Status side-table and persisted scan records -/

/-- Overwrite-or-insert into an association list; models
`SETEX scan_status:<id> <ttl> <status>`. -/
def updateAssoc (tbl : List (String × String)) (k v : String) :
    List (String × String) :=
  (k, v) :: tbl.filter (fun p => p.1 ≠ k)

/-- Lookup in the status side-table (`get_job_status`). -/
def lookupAssoc (tbl : List (String × String)) (k : String) : Option String :=
  (tbl.find? (fun p => p.1 = k)).map Prod.snd

/-- The persisted scan statuses (PostgreSQL enum on `Scan.status`). -/
inductive ScanStatus
  | queued
  | running
  | completed
  | failed
  | cancelled
  deriving DecidableEq, Repr

/-- The persisted `Scan` row, restricted to the fields the lifecycle
operations touch. -/
structure ScanRecord where
  id : String
  userId : String
  target : String
  scanMode : String
  executionMode : String
  status : ScanStatus
  createdAt : Int
  startedAt : Option Int
  completedAt : Option Int
  durationSeconds : Option Int
  vulnerabilitiesFound : Option Nat
  errorMessage : Option String
  deriving DecidableEq, Repr

/-- Combined persistent + ephemeral state seen by the worker: the scan
table and the Redis status side-table. -/
structure SystemState where
  scans : List ScanRecord
  statusTable : List (String × String)
  deriving DecidableEq, Repr

/-- Apply an update to the row with the given id (the worker queries
`select(Scan).where(Scan.id == scan_uuid)` and commits the mutation). -/
def updateScanRecord (scans : List ScanRecord) (scanId : String)
    (f : ScanRecord → ScanRecord) : List ScanRecord :=
  scans.map (fun s => if s.id = scanId then f s else s)

/-- `QueueService.cancel_job`: set the status record to `"cancelled"`.
It touches nothing but the side-table — in particular no queue entry is
removed. -/
def cancelJob (queue : PQueue) (statusTable : List (String × String))
    (scanId : String) : PQueue × List (String × String) :=
  (queue, updateAssoc statusTable scanId "cancelled")

/-! ### Tier service (`app/services/tier_service.py`) -/

/-- `settings.OWNER_EMAILS` from `app/core/config.py`. -/
def OWNER_EMAILS : List String :=
  ["saifullahpathan49@gmail.com", "saifullah.pathan24@sanjivani.edu.in"]

/-- `is_owner_email`: case-insensitive membership in the owner list. -/
def isOwnerEmail (email : String) : Bool :=
  (OWNER_EMAILS.map lowerStr).contains (lowerStr email)

/-- The `TierLimits` schema returned by `get_tier_limits`. -/
structure TierLimits where
  tier : String
  scansPerDay : Option Nat
  allowedScanModes : List String
  rateLimitPerHour : Option Nat
  scanHistoryDays : Option Nat
  deriving DecidableEq, Repr

/-- `TIER_CONFIG` (with `settings.SCAN_LIMIT_FREE_TIER = 10` and
`settings.RATE_LIMIT_FREE_TIER = 100`), keyed by lowercase tier string. -/
def tierConfig (tierStr : String) : Option TierLimits :=
  if tierStr = "free" then
    some ⟨"free", some 10, ["common", "fast"], some 100, some 30⟩
  else if tierStr = "premium" then
    some ⟨"premium", none, ["common", "fast", "full", "stealth", "aggressive"],
      none, some 365⟩
  else if tierStr = "enterprise" then
    some ⟨"enterprise", none,
      ["common", "fast", "full", "stealth", "aggressive", "custom"],
      none, none⟩
  else none

/-- `TierService.get_tier_limits`: normalize the tier, force enterprise
for owners, and default an unknown tier to free. -/
def getTierLimits (tier : String) (email : Option String) : TierLimits :=
  let tierStr := normalizeTier tier
  let tierStr := match email with
    | some e => if isOwnerEmail e then "enterprise" else tierStr
    | none => tierStr
  match tierConfig tierStr with
  | some limits => limits
  | none => (tierConfig "free").getD ⟨"free", some 10, ["common", "fast"], some 100, some 30⟩

/-- The `TierCheckResponse` schema. -/
structure TierCheckResponse where
  allowed : Bool
  reason : Option String
  currentUsage : Option Nat
  limit : Option Nat
  deriving DecidableEq, Repr

/-- The user attributes the admission checks read. -/
structure UserRec where
  id : String
  email : String
  tier : String
  deriving DecidableEq, Repr

/-- `TierService.check_scan_mode`: owners always pass, otherwise the mode
must belong to the tier's allow-list; the denial reason names the
(normalized) tier and lists the allowed modes. -/
def checkScanMode (user : UserRec) (scanMode : String) : TierCheckResponse :=
  if isOwnerEmail user.email then ⟨true, none, none, none⟩
  else
    let tierStr := normalizeTier user.tier
    let limits := getTierLimits tierStr (some user.email)
    let allowed := limits.allowedScanModes.contains scanMode
    ⟨allowed,
      if allowed then none
      else some ("Scan mode '" ++ scanMode ++ "' not allowed for " ++ tierStr
        ++ " tier. Allowed modes: "
        ++ String.intercalate ", " limits.allowedScanModes),
      none, none⟩

/-- The count query of `check_scan_limit`:
`count(Scan.id) where user_id = user.id and created_at >= now - 1 day`. -/
def recentScanCount (user : UserRec) (scans : List ScanRecord) (now : Int) :
    Nat :=
  (scans.filter (fun s => s.userId = user.id ∧ now - 86400 ≤ s.createdAt)).length

/-- `TierService.check_scan_limit`: owners and unlimited tiers always
pass; otherwise count the user's scans created in the last 24 hours and
allow iff the count is below `scans_per_day`. -/
def checkScanLimit (user : UserRec) (scans : List ScanRecord) (now : Int) :
    TierCheckResponse :=
  if isOwnerEmail user.email then ⟨true, none, none, none⟩
  else
    let tierStr := normalizeTier user.tier
    let limits := getTierLimits tierStr (some user.email)
    match limits.scansPerDay with
    | none => ⟨true, none, none, none⟩
    | some perDay =>
      let scanCount := recentScanCount user scans now
      let allowed := scanCount < perDay
      ⟨allowed,
        if allowed then none
        else some ("Daily scan limit reached (" ++ toString perDay
          ++ " scans per day)"),
        some scanCount, some perDay⟩

/-- `TierService.check_scan_access`: the mode check runs first and a mode
denial is returned as-is, before the scan-limit (quota) check — which is
the only part reading the scan store — is evaluated. -/
def checkScanAccess (user : UserRec) (scanMode : String)
    (scans : List ScanRecord) (now : Int) : TierCheckResponse :=
  let modeCheck := checkScanMode user scanMode
  if !modeCheck.allowed then modeCheck
  else checkScanLimit user scans now

/-! ### Scan service (`app/services/scan_service.py`) -/

/-- Ways `create_scan` can fail before returning a scan: the Python
`TypeError` raised by a positional call whose argument count does not
match the callee's parameter count, or the `HTTPException(403, reason)`
raised on an admission denial. -/
inductive CreateError
  | typeError
  | admissionDenied (reason : Option String)
  deriving DecidableEq, Repr

/-- Parameter count of `TierService.check_scan_access` after the bound
`cls`: `db`, `user`, `scan_mode` (`tier_service.py` lines 168–173). -/
def checkScanAccessParamCount : Nat := 3

/-- Positional-argument count of the admission-check call in
`create_scan` (`scan_service.py` lines 44–46): `db`, `user`,
`scan_data.scan_mode`, `scan_data.execution_mode`. -/
def createScanCallArgCount : Nat := 4

/-- Python call semantics for the admission-check call site: when the
positional-argument count matches the parameter count the body of
`check_scan_access` runs, otherwise the interpreter raises `TypeError`
before the callee body is entered. -/
def callCheckScanAccess (argCount : Nat) (user : UserRec) (scanMode : String)
    (scans : List ScanRecord) (now : Int) :
    Except CreateError TierCheckResponse :=
  if argCount = checkScanAccessParamCount then
    .ok (checkScanAccess user scanMode scans now)
  else .error .typeError

/-- `ScanService.create_scan` up to persistence (lines 22–65): call the
composite admission check with the four positional arguments the source
passes; on a raised `TypeError` nothing further runs and nothing is
persisted; on denial raise `HTTPException(403, reason)` and persist
nothing; on success persist a new scan with status `'queued'`. -/
def createScan (user : UserRec) (targetUrl scanMode executionMode : String)
    (scans : List ScanRecord) (now : Int) (newId : String) :
    Except CreateError (List ScanRecord × ScanRecord) :=
  match callCheckScanAccess createScanCallArgCount user scanMode scans now with
  | .error e => .error e
  | .ok accessCheck =>
    if !accessCheck.allowed then .error (.admissionDenied accessCheck.reason)
    else
      let scan : ScanRecord :=
        { id := newId, userId := user.id, target := targetUrl,
          scanMode := scanMode, executionMode := executionMode,
          status := .queued, createdAt := now, startedAt := none,
          completedAt := none, durationSeconds := none,
          vulnerabilitiesFound := none, errorMessage := none }
      .ok (scans ++ [scan], scan)

/-- `ScanService.get_scan`: fetch by scan id and owning user id. -/
def getScan (scans : List ScanRecord) (scanId userId : String) :
    Option ScanRecord :=
  scans.find? (fun s => s.id = scanId ∧ s.userId = userId)

/-- Errors raised by `cancel_scan`: 404 when the scan is not found for
this owner, 400 (`InvalidTransition`) when its status is not cancellable. -/
inductive CancelError
  | notFound
  | invalidStatus (current : ScanStatus)
  deriving DecidableEq, Repr

/-- `ScanService.cancel_scan`: only a scan owned by `userId` whose status
is `queued` or `running` is cancelled (status `'cancelled'`,
`completed_at := now`); any terminal status raises and leaves the table
unchanged.  The best-effort `queue_service.cancel_job` call is modelled by
`cancelJob` on the side-table. -/
def cancelScan (scans : List ScanRecord) (statusTable : List (String × String))
    (scanId userId : String) (now : Int) :
    Except CancelError (List ScanRecord × List (String × String)) :=
  match getScan scans scanId userId with
  | none => .error .notFound
  | some s =>
    if s.status = .queued ∨ s.status = .running then
      .ok (scans.map (fun r =>
            if r.id = scanId ∧ r.userId = userId then
              { r with status := .cancelled, completedAt := some now }
            else r),
          updateAssoc statusTable scanId "cancelled")
    else .error (.invalidStatus s.status)

/-! ### Retention service (`app/services/retention_service.py`) -/

/-- `RETENTION_PERIODS.get(tier.lower())`: `some days` for a finite
horizon; `none` both for enterprise (explicit `None` value, unlimited)
and for an unknown tier (dictionary miss). -/
def getRetentionPeriod (tier : String) : Option Nat :=
  if lowerStr tier = "free" then some 30
  else if lowerStr tier = "premium" then some 365
  else none

/-- Whether a scan row is matched by the `delete` statement of
`archive_expired_scans`: owned by the subject and created strictly before
the cutoff. -/
def isExpired (userId : String) (cutoff : Int) (s : ScanRecord) : Bool :=
  s.userId = userId ∧ s.createdAt < cutoff

/-- `RetentionService.archive_expired_scans`: no-op returning 0 for an
unlimited horizon; otherwise delete the subject's scans with
`created_at < now - days` (days in seconds: `timedelta(days=d)`), and
return the rowcount removed together with the surviving table. -/
def archiveExpiredScans (scans : List ScanRecord) (userId : String)
    (tier : String) (now : Int) : Nat × List ScanRecord :=
  match getRetentionPeriod tier with
  | none => (0, scans)
  | some days =>
    let cutoff := now - (days : Int) * 86400
    ((scans.filter (isExpired userId cutoff)).length,
      scans.filter (fun s => !isExpired userId cutoff s))

/-- `RetentionService.get_accessible_scans` without the final ordering:
the subject's scans, restricted to `created_at ≥ now - days` when the
horizon is finite.  (The SQL also orders the rows by `created_at`
descending; the order of the returned list is irrelevant to the
membership properties stated below and is not modelled.) -/
def getAccessibleScans (scans : List ScanRecord) (userId : String)
    (tier : String) (now : Int) : List ScanRecord :=
  let base := scans.filter (fun s => s.userId = userId)
  match getRetentionPeriod tier with
  | none => base
  | some days => base.filter (fun s => now - (days : Int) * 86400 ≤ s.createdAt)

/-! ### Worker (`app/workers/scan_worker.py`) -/

instance {ε α : Type} [DecidableEq ε] [DecidableEq α] :
    DecidableEq (Except ε α) := fun a b =>
  match a, b with
  | .ok x, .ok y =>
    if h : x = y then .isTrue (by rw [h])
    else .isFalse (fun hc => h (by injection hc))
  | .error x, .error y =>
    if h : x = y then .isTrue (by rw [h])
    else .isFalse (fun hc => h (by injection hc))
  | .ok _, .error _ => .isFalse (fun hc => by injection hc)
  | .error _, .ok _ => .isFalse (fun hc => by injection hc)

/-- One invocation's inputs for `_process_scan_async`: the wall-clock
start of the attempt (`start_time = datetime.utcnow()` at entry), the
wall-clock end, and the outcome of `_execute_cli_tool` — `.ok` carries
the severity labels of the reported vulnerabilities, `.error` is a raised
exception message. -/
structure Attempt where
  startTime : Int
  endTime : Int
  engine : Except String (List String)
  deriving DecidableEq, Repr

/-- `_process_scan_async`: unconditionally set the persisted row to
`running` with `started_at := startTime` and the status record to
`"processing"`; run the engine; on success persist `completed` with
`completed_at := endTime` and `duration = endTime - startTime`; on
failure persist `failed` with an error message and re-raise (the returned
`Bool` is `false` when the exception propagates to Celery's retry
logic).  Note the function consults nothing before starting: the status
side-table is only ever written, never read. -/
def processScanAsync (st : SystemState) (scanId : String) (a : Attempt) :
    SystemState × Bool :=
  let running : SystemState :=
    { scans := updateScanRecord st.scans scanId
        (fun s => { s with status := .running, startedAt := some a.startTime }),
      statusTable := updateAssoc st.statusTable scanId "processing" }
  match a.engine with
  | .ok vulns =>
    let finish : ScanRecord → ScanRecord := fun s =>
      { s with
          status := .completed
          completedAt := some a.endTime
          durationSeconds := some (a.endTime - a.startTime)
          vulnerabilitiesFound := some vulns.length }
    ({ scans := updateScanRecord running.scans scanId finish,
       statusTable := updateAssoc running.statusTable scanId "completed" },
      true)
  | .error msg =>
    let fail : ScanRecord → ScanRecord := fun s =>
      { s with
          status := .failed
          completedAt := some a.endTime
          errorMessage := some msg }
    ({ scans := updateScanRecord running.scans scanId fail,
       statusTable := updateAssoc running.statusTable scanId "failed" },
      false)

/-- Celery's `autoretry_for=(Exception,), max_retries=3` driver around
`process_scan`: re-run the task after a raising attempt while retries
remain.  `attempts` supplies the per-invocation wall clock and engine
outcome. -/
def runWithRetry (st : SystemState) (scanId : String) :
    Nat → List Attempt → SystemState
  | _, [] => st
  | retriesLeft, a :: rest =>
    let step := processScanAsync st scanId a
    if step.2 then step.1
    else
      match retriesLeft with
      | 0 => step.1
      | r + 1 => runWithRetry step.1 scanId r rest

/-! ## Helper lemmas -/

lemma rpop_append (xs : List String) (x : String) :
    rpop (xs ++ [x]) = (some x, xs) := by
  induction xs with
  | nil => rfl
  | cons a l ih =>
    cases l with
    | nil => rfl
    | cons b m =>
      have ih2 : rpop (b :: (m ++ [x])) = (some x, b :: m) := by
        simpa only [List.cons_append] using ih
      show rpop (a :: b :: (m ++ [x])) = (some x, a :: b :: m)
      simp [rpop, ih2]

lemma drainN_normal (n : List String) :
    drainN n.length ⟨[], n⟩ = n.reverse := by
  induction n using List.reverseRecOn with
  | nil => rfl
  | append_singleton ys y ih =>
    have hlen : (ys ++ [y]).length = ys.length + 1 := by simp
    rw [hlen]
    show (match dequeueScan ⟨[], ys ++ [y]⟩ with
      | (some d, q₂) => d :: drainN ys.length q₂
      | (none, _) => []) = (ys ++ [y]).reverse
    simp only [dequeueScan, rpop, rpop_append, ih]
    simp

lemma drainN_pair (h n : List String) :
    drainN (h.length + n.length) ⟨h, n⟩ = h.reverse ++ n.reverse := by
  induction h using List.reverseRecOn with
  | nil => simpa using drainN_normal n
  | append_singleton xs x ih =>
    have hlen : (xs ++ [x]).length + n.length = (xs.length + n.length) + 1 := by
      simp; omega
    rw [hlen]
    show (match dequeueScan ⟨xs ++ [x], n⟩ with
      | (some d, q₂) => d :: drainN (xs.length + n.length) q₂
      | (none, _) => []) = (xs ++ [x]).reverse ++ n.reverse
    simp only [dequeueScan, rpop_append, ih]
    simp

lemma length_filter_partition {α : Type} (p : α → Bool) (l : List α) :
    (l.filter p).length + (l.filter (fun a => !p a)).length = l.length := by
  induction l with
  | nil => rfl
  | cons a l ih =>
    cases h : p a <;> simp [List.filter_cons, h, ← ih] <;> omega

lemma foldl_enqueue (events : List (Lane × String)) : ∀ q : PQueue,
    (events.foldl (fun q e => enqueueLane q e.1 e.2) q).high
        = ((events.filter (fun e => isHighLane e.1)).map Prod.snd).reverse ++ q.high
    ∧ (events.foldl (fun q e => enqueueLane q e.1 e.2) q).normal
        = ((events.filter (fun e => !isHighLane e.1)).map Prod.snd).reverse ++ q.normal := by
  induction events with
  | nil => intro q; simp
  | cons e es ih =>
    intro q
    obtain ⟨lane, d⟩ := e
    cases lane with
    | high =>
      have h := ih (enqueueLane q .high d)
      refine ⟨?_, ?_⟩
      · show (es.foldl (fun q e => enqueueLane q e.1 e.2)
            (enqueueLane q .high d)).high = _
        rw [h.1]
        simp [List.filter_cons, isHighLane, enqueueLane]
      · show (es.foldl (fun q e => enqueueLane q e.1 e.2)
            (enqueueLane q .high d)).normal = _
        rw [h.2]
        simp [List.filter_cons, isHighLane, enqueueLane]
    | normal =>
      have h := ih (enqueueLane q .normal d)
      refine ⟨?_, ?_⟩
      · show (es.foldl (fun q e => enqueueLane q e.1 e.2)
            (enqueueLane q .normal d)).high = _
        rw [h.1]
        simp [List.filter_cons, isHighLane, enqueueLane]
      · show (es.foldl (fun q e => enqueueLane q e.1 e.2)
            (enqueueLane q .normal d)).normal = _
        rw [h.2]
        simp [List.filter_cons, isHighLane, enqueueLane]

/-! ## C3 -/

/-- C3: for every interleaving of high-lane and normal-lane enqueues into
an initially empty queue, draining the queue with as many dequeues as
there were enqueues returns all high-lane descriptors first, each lane in
FIFO (enqueue) order; and a non-blocking dequeue on two empty lanes
returns nothing. -/
theorem queue_priority_fifo_c3 (events : List (Lane × String)) :
    drainN events.length
        (events.foldl (fun q e => enqueueLane q e.1 e.2) emptyQueue)
      = ((events.filter (fun e => isHighLane e.1)).map Prod.snd)
        ++ ((events.filter (fun e => !isHighLane e.1)).map Prod.snd)
    ∧ dequeueScan emptyQueue = (none, emptyQueue) := by
  constructor
  · have h := foldl_enqueue events emptyQueue
    set Q := events.foldl (fun q e => enqueueLane q e.1 e.2) emptyQueue with hQ
    have hhigh : Q.high
        = ((events.filter (fun e => isHighLane e.1)).map Prod.snd).reverse := by
      simpa [emptyQueue] using h.1
    have hnormal : Q.normal
        = ((events.filter (fun e => !isHighLane e.1)).map Prod.snd).reverse := by
      simpa [emptyQueue] using h.2
    have hlen : events.length = Q.high.length + Q.normal.length := by
      rw [hhigh, hnormal]
      simp only [List.length_reverse, List.length_map]
      rw [length_filter_partition (fun e => isHighLane e.1) events]
    have hdrain : drainN (Q.high.length + Q.normal.length) ⟨Q.high, Q.normal⟩
        = Q.high.reverse ++ Q.normal.reverse := drainN_pair Q.high Q.normal
    rw [hlen]
    have : Q = ⟨Q.high, Q.normal⟩ := rfl
    rw [this, hdrain, hhigh, hnormal]
    simp
  · rfl

/-! ## C4 -/

lemma lookupAssoc_updateAssoc (tbl : List (String × String)) (k v : String) :
    lookupAssoc (updateAssoc tbl k v) k = some v := by
  simp [lookupAssoc, updateAssoc]

/-- C4: `cancel_scan` changes state only when the scan belongs to the
owner (otherwise: not-found error) and its status is `queued` or
`running`, in which case the matching row is set to `cancelled` with
completion timestamp `now`, every other row is untouched, and the queue
side-table records the cancellation; on a scan in any terminal status it
returns an `invalidStatus` domain error (an `Except.error`, so the table
is left unchanged rather than silently succeeding). -/
theorem cancel_scan_c4 (scans : List ScanRecord)
    (table : List (String × String)) (scanId userId : String) (now : Int) :
    (getScan scans scanId userId = none →
      cancelScan scans table scanId userId now = .error .notFound)
    ∧ (∀ s, getScan scans scanId userId = some s →
        ((s.status = .queued ∨ s.status = .running) →
          ∃ p, cancelScan scans table scanId userId now = .ok p
            ∧ (∀ r ∈ scans, ¬(r.id = scanId ∧ r.userId = userId) → r ∈ p.1)
            ∧ (∀ r ∈ scans, r.id = scanId ∧ r.userId = userId →
                { r with status := .cancelled, completedAt := some now } ∈ p.1)
            ∧ (∀ r ∈ p.1, r.id = scanId ∧ r.userId = userId →
                r.status = .cancelled ∧ r.completedAt = some now)
            ∧ p.1.length = scans.length
            ∧ lookupAssoc p.2 scanId = some "cancelled")
        ∧ ((s.status ≠ .queued ∧ s.status ≠ .running) →
          cancelScan scans table scanId userId now
            = .error (.invalidStatus s.status))) := by
  constructor
  · intro hnone
    simp [cancelScan, hnone]
  · intro s hfind
    constructor
    · intro hok
      refine ⟨(scans.map (fun r =>
          if r.id = scanId ∧ r.userId = userId then
            { r with status := .cancelled, completedAt := some now }
          else r), updateAssoc table scanId "cancelled"), ?_, ?_, ?_, ?_, ?_, ?_⟩
      · simp [cancelScan, hfind, hok]
      · intro r hr hnot
        refine List.mem_map.2 ⟨r, hr, ?_⟩
        simp [hnot]
      · intro r hr hmatch
        refine List.mem_map.2 ⟨r, hr, ?_⟩
        simp [hmatch]
      · intro r hr hmatch
        obtain ⟨r₀, hr₀, hEq⟩ := List.mem_map.1 hr
        by_cases hm : r₀.id = scanId ∧ r₀.userId = userId
        · rw [if_pos hm] at hEq
          subst hEq
          exact ⟨rfl, rfl⟩
        · rw [if_neg hm] at hEq
          subst hEq
          exact absurd hmatch hm
      · simp
      · exact lookupAssoc_updateAssoc table scanId "cancelled"
    · intro hterm
      have : ¬(s.status = ScanStatus.queued ∨ s.status = ScanStatus.running) := by
        rintro (h | h) <;> [exact hterm.1 h; exact hterm.2 h]
      simp [cancelScan, hfind, this]

/-- Witness for C4 at a concrete two-row table: cancelling the queued
scan `s1` owned by `u1` succeeds and marks it cancelled, while cancelling
the completed scan `s2` reports the domain error. -/
theorem cancel_scan_c4_witness :
    (getScan
        [⟨"s1", "u1", "http://t", "common", "async", .queued, 10, none, none,
          none, none, none⟩,
         ⟨"s2", "u1", "http://t", "common", "async", .completed, 11, none,
          some 12, none, none, none⟩] "s1" "u1"
      = some ⟨"s1", "u1", "http://t", "common", "async", .queued, 10, none,
          none, none, none, none⟩)
    ∧ (∃ p, cancelScan
        [⟨"s1", "u1", "http://t", "common", "async", .queued, 10, none, none,
          none, none, none⟩,
         ⟨"s2", "u1", "http://t", "common", "async", .completed, 11, none,
          some 12, none, none, none⟩] [] "s1" "u1" 50 = .ok p
        ∧ lookupAssoc p.2 "s1" = some "cancelled")
    ∧ cancelScan
        [⟨"s1", "u1", "http://t", "common", "async", .queued, 10, none, none,
          none, none, none⟩,
         ⟨"s2", "u1", "http://t", "common", "async", .completed, 11, none,
          some 12, none, none, none⟩] [] "s2" "u1" 50
      = .error (.invalidStatus .completed) := by
  refine ⟨by decide, ?_, ?_⟩
  · obtain ⟨p, hp, _, _, _, _, htbl⟩ :=
      ((cancel_scan_c4
        [⟨"s1", "u1", "http://t", "common", "async", .queued, 10, none, none,
          none, none, none⟩,
         ⟨"s2", "u1", "http://t", "common", "async", .completed, 11, none,
          some 12, none, none, none⟩] [] "s1" "u1" 50).2
        ⟨"s1", "u1", "http://t", "common", "async", .queued, 10, none, none,
          none, none, none⟩ (by decide)).1 (by decide)
    exact ⟨p, hp, htbl⟩
  · exact ((cancel_scan_c4
        [⟨"s1", "u1", "http://t", "common", "async", .queued, 10, none, none,
          none, none, none⟩,
         ⟨"s2", "u1", "http://t", "common", "async", .completed, 11, none,
          some 12, none, none, none⟩] [] "s2" "u1" 50).2
        ⟨"s2", "u1", "http://t", "common", "async", .completed, 11, none,
          some 12, none, none, none⟩ (by decide)).2 (by decide)

/-! ## C7 -/

/-- C7: for a tier with a finite horizon, `archive_expired_scans` removes
exactly the subject's scans created strictly before `now` minus the
horizon — the survivors are precisely the in-horizon and foreign rows, in
their original order — and returns the number removed; for an unlimited
horizon it removes nothing and returns 0. -/
theorem retention_sweep_c7 (scans : List ScanRecord) (userId tier : String)
    (now : Int) :
    (∀ days, getRetentionPeriod tier = some days →
      (archiveExpiredScans scans userId tier now).1
          = (scans.filter (isExpired userId (now - (days : Int) * 86400))).length
      ∧ (archiveExpiredScans scans userId tier now).2.Sublist scans
      ∧ (∀ r, r ∈ (archiveExpiredScans scans userId tier now).2
          ↔ r ∈ scans
            ∧ ¬(r.userId = userId ∧ r.createdAt < now - (days : Int) * 86400))
      ∧ (archiveExpiredScans scans userId tier now).1
          + (archiveExpiredScans scans userId tier now).2.length
          = scans.length)
    ∧ (getRetentionPeriod tier = none →
        archiveExpiredScans scans userId tier now = (0, scans)) := by
  constructor
  · intro days hdays
    refine ⟨?_, ?_, ?_, ?_⟩
    · simp [archiveExpiredScans, hdays]
    · simp only [archiveExpiredScans, hdays]
      exact List.filter_sublist scans
    · intro r
      simp only [archiveExpiredScans, hdays]
      simp [List.mem_filter, isExpired]
      tauto
    · simp only [archiveExpiredScans, hdays]
      simpa using
        length_filter_partition (isExpired userId (now - (days : Int) * 86400))
          scans
  · intro hnone
    simp [archiveExpiredScans, hnone]

/-- Witness for C7: a free-tier sweep at `now = 100 · 86400` removes the
31-day-old scan and keeps the 1-day-old scan; an enterprise sweep removes
nothing. -/
theorem retention_sweep_c7_witness :
    (getRetentionPeriod "free" = some 30
      ∧ (archiveExpiredScans
          [⟨"old", "u1", "t", "common", "async", .completed, 69 * 86400, none,
            none, none, none, none⟩,
           ⟨"new", "u1", "t", "common", "async", .completed, 99 * 86400, none,
            none, none, none, none⟩] "u1" "free" (100 * 86400)).1 = 1
      ∧ (⟨"new", "u1", "t", "common", "async", .completed, 99 * 86400, none,
            none, none, none, none⟩ : ScanRecord) ∈
          (archiveExpiredScans
          [⟨"old", "u1", "t", "common", "async", .completed, 69 * 86400, none,
            none, none, none, none⟩,
           ⟨"new", "u1", "t", "common", "async", .completed, 99 * 86400, none,
            none, none, none, none⟩] "u1" "free" (100 * 86400)).2)
    ∧ (getRetentionPeriod "enterprise" = none
      ∧ archiveExpiredScans
          [⟨"old", "u1", "t", "common", "async", .completed, 69 * 86400, none,
            none, none, none, none⟩] "u1" "enterprise" (100 * 86400)
          = (0, [⟨"old", "u1", "t", "common", "async", .completed, 69 * 86400,
              none, none, none, none, none⟩])) := by
  constructor
  · refine ⟨by decide, ?_, ?_⟩
    · have h := ((retention_sweep_c7
        [⟨"old", "u1", "t", "common", "async", .completed, 69 * 86400, none,
          none, none, none, none⟩,
         ⟨"new", "u1", "t", "common", "async", .completed, 99 * 86400, none,
          none, none, none, none⟩] "u1" "free" (100 * 86400)).1 30
          (by decide)).1
      rw [h]; decide
    · have h := (((retention_sweep_c7
        [⟨"old", "u1", "t", "common", "async", .completed, 69 * 86400, none,
          none, none, none, none⟩,
         ⟨"new", "u1", "t", "common", "async", .completed, 99 * 86400, none,
          none, none, none, none⟩] "u1" "free" (100 * 86400)).1 30
          (by decide)).2.2.1
          ⟨"new", "u1", "t", "common", "async", .completed, 99 * 86400, none,
            none, none, none, none⟩).2
      exact h ⟨by decide, by decide⟩
  · exact ⟨by decide, (retention_sweep_c7
      [⟨"old", "u1", "t", "common", "async", .completed, 69 * 86400, none,
        none, none, none, none⟩] "u1" "enterprise" (100 * 86400)).2
        (by decide)⟩

/-! ## C10 -/

/-- C10: a tier string outside `{free, premium, enterprise}` (after
lowercasing) has no retention horizon, so a sweep for it removes zero
scans and `get_accessible_scans` returns all of the subject's scans,
while `get_tier_limits` defaults the same unknown tier to the free-tier
limits. -/
theorem unknown_tier_c10 (tier : String)
    (h1 : lowerStr tier ≠ "free") (h2 : lowerStr tier ≠ "premium")
    (h3 : lowerStr tier ≠ "enterprise")
    (scans : List ScanRecord) (userId : String) (now : Int) :
    getRetentionPeriod tier = none
    ∧ archiveExpiredScans scans userId tier now = (0, scans)
    ∧ (∀ r, r ∈ getAccessibleScans scans userId tier now
        ↔ r ∈ scans ∧ r.userId = userId)
    ∧ getTierLimits tier none = getTierLimits "free" none := by
  have hret : getRetentionPeriod tier = none := by
    simp [getRetentionPeriod, h1, h2]
  refine ⟨hret, by simp [archiveExpiredScans, hret], ?_, ?_⟩
  · intro r
    simp [getAccessibleScans, hret, List.mem_filter]
  · have hfree : lowerStr "free" = "free" := by decide
    simp [getTierLimits, normalizeTier, tierConfig, h1, h2, h3, hfree]

/-- Witness for C10 at the concrete unknown tier `"Gold"`. -/
theorem unknown_tier_c10_witness :
    (lowerStr "Gold" ≠ "free" ∧ lowerStr "Gold" ≠ "premium"
      ∧ lowerStr "Gold" ≠ "enterprise")
    ∧ getRetentionPeriod "Gold" = none
    ∧ archiveExpiredScans
        [⟨"old", "u1", "t", "common", "async", .completed, 0, none, none,
          none, none, none⟩] "u1" "Gold" (400 * 86400)
        = (0, [⟨"old", "u1", "t", "common", "async", .completed, 0, none,
            none, none, none, none⟩])
    ∧ getTierLimits "Gold" none = getTierLimits "free" none := by
  have h := unknown_tier_c10 "Gold" (by decide) (by decide) (by decide)
    [⟨"old", "u1", "t", "common", "async", .completed, 0, none, none,
      none, none, none⟩] "u1" (400 * 86400)
  exact ⟨⟨by decide, by decide, by decide⟩, h.1, h.2.1, h.2.2.2⟩

/-! ## C9 -/

/-- C9 counterexample: the serialized queue descriptor does not carry the
fields named in the claim — it has no `job_id` field (its identifier
field is `scan_id`), no `owner_id` (it is `user_id`), no `target` (it is
`target_url`) and no `mode` (it is `scan_mode`). -/
theorem descriptor_fields_c9_counterexample :
    "job_id" ∉ (scanJobData "s1" "u1" "http://t" "common"
        "2024-01-01T00:00:00").map Prod.fst
    ∧ "owner_id" ∉ (scanJobData "s1" "u1" "http://t" "common"
        "2024-01-01T00:00:00").map Prod.fst
    ∧ "scan_id" ∈ (scanJobData "s1" "u1" "http://t" "common"
        "2024-01-01T00:00:00").map Prod.fst := by
  decide

/-- C9 (amended): the serialized queue descriptor is a JSON object whose
fields are exactly `scan_id`, `user_id`, `target_url`, `scan_mode` and
`enqueued_at` (the `datetime.utcnow().isoformat()` timestamp), with field
order not significant. -/
theorem descriptor_fields_c9 (scanId userId targetUrl scanMode enqAt : String) :
    (scanJobData scanId userId targetUrl scanMode enqAt).map Prod.fst
      = ["scan_id", "user_id", "target_url", "scan_mode", "enqueued_at"]
    ∧ lookupAssoc (scanJobData scanId userId targetUrl scanMode enqAt)
        "scan_id" = some scanId
    ∧ lookupAssoc (scanJobData scanId userId targetUrl scanMode enqAt)
        "user_id" = some userId
    ∧ lookupAssoc (scanJobData scanId userId targetUrl scanMode enqAt)
        "target_url" = some targetUrl
    ∧ lookupAssoc (scanJobData scanId userId targetUrl scanMode enqAt)
        "scan_mode" = some scanMode
    ∧ lookupAssoc (scanJobData scanId userId targetUrl scanMode enqAt)
        "enqueued_at" = some enqAt := by
  refine ⟨rfl, ?_, ?_, ?_, ?_, ?_⟩ <;> simp [lookupAssoc, scanJobData]

/-! ## C8 -/

/-- C8: when the backing window store is unreachable or raises, the
rate-limit check fails open — it allows the request with the full limit
reported as remaining — and logs the degradation; and a request with
Redis unavailable passes straight through `dispatch`.  A store failure is
therefore never surfaced as a denial (the `allowed` flag is `true` on
every failure) nor as an error (the except branch returns a normal
result triple). -/
theorem fail_open_c8 (limit window now : Nat) (msg : String) (userId : String)
    (check : RateCheckResult) :
    (checkRateLimitSafe limit window (.error msg) now).1.result.allowed = true
    ∧ (checkRateLimitSafe limit window (.error msg) now).1.errorLogged = true
    ∧ (checkRateLimitSafe limit window (.error msg) now).1.result
        = ⟨true, limit, now + window⟩
    ∧ dispatchAllows false (some userId) false check = true := by
  exact ⟨rfl, rfl, rfl, rfl⟩

/-! ## C2 -/

/-- C2: evaluation at the failing input.  `cancel_job` only marks the
status side-table (the queue entry `"d1"` stays in place), but a worker
that then processes the dequeued entry never re-reads that record:
starting from a state whose status record for `s1` is already
`"cancelled"`, `_process_scan_async` still transitions the persisted scan
to `running` and then `completed`, records the engine result, and
overwrites the status record with `"completed"` — the job is executed,
not skipped. -/
theorem worker_ignores_cancel_c2 :
    cancelJob ⟨["d1"], []⟩ [("s1", "queued")] "s1"
      = (⟨["d1"], []⟩, [("s1", "cancelled")])
    ∧ lookupAssoc [("s1", "cancelled")] "s1" = some "cancelled"
    ∧ processScanAsync
        ⟨[⟨"s1", "u1", "http://t", "common", "async", .queued, 0, none, none,
          none, none, none⟩], [("s1", "cancelled")]⟩
        "s1" ⟨100, 110, .ok ["low"]⟩
      = (⟨[⟨"s1", "u1", "http://t", "common", "async", .completed, 0,
            some 100, some 110, some 10, some 1, none⟩],
          [("s1", "completed")]⟩, true) := by
  decide

/-! ## C6 -/

lemma mem_updateScanRecord (l : List ScanRecord) (scanId : String)
    (f : ScanRecord → ScanRecord) (r : ScanRecord)
    (hr : r ∈ updateScanRecord l scanId f) :
    ∃ s, s ∈ l ∧ (s.id = scanId → r = f s) ∧ (s.id ≠ scanId → r = s) := by
  obtain ⟨s, hs, hEq⟩ := List.mem_map.1 hr
  by_cases h : s.id = scanId
  · rw [if_pos h] at hEq
    exact ⟨s, hs, fun _ => hEq.symm, fun hn => absurd h hn⟩
  · rw [if_neg h] at hEq
    exact ⟨s, hs, fun hp => absurd hp h, fun _ => hEq.symm⟩

/-- C6 counterexample: execution raises on attempts 1 (start 0, end 10)
and 2 (start 20, end 30) and succeeds on attempt 3 (start 100, end 110)
under `max_retries = 3`.  The job does end `completed`, but its recorded
duration is `110 - 100 = 10` — measured from the final attempt's start —
not the `110 - 0 = 110` that measuring from the original `started_at`
would give (each attempt also overwrites `started_at`). -/
theorem retry_duration_c6_counterexample :
    (runWithRetry
        ⟨[⟨"s1", "u1", "http://t", "common", "async", .queued, 0, none, none,
          none, none, none⟩], []⟩ "s1" 3
        [⟨0, 10, .error "boom"⟩, ⟨20, 30, .error "boom"⟩, ⟨100, 110, .ok []⟩]).scans
      = [⟨"s1", "u1", "http://t", "common", "async", .completed, 0,
          some 100, some 110, some 10, some 0, some "boom"⟩]
    ∧ some (10 : Int) ≠ some (110 : Int) := by
  decide

/-- C6 (amended): when execution raises on attempts 1 and 2 and succeeds
on attempt 3 under `max_retries = 3`, the job ends `completed` (not
`failed`); its `started_at` is overwritten by each attempt, and the
recorded duration is measured from the start of the final attempt
(`endTime - startTime` of attempt 3), not from the original
`started_at`. -/
theorem retry_duration_c6 (st : SystemState) (scanId : String)
    (a1 a2 a3 : Attempt) (m1 m2 : String) (v : List String)
    (h1 : a1.engine = .error m1) (h2 : a2.engine = .error m2)
    (h3 : a3.engine = .ok v) :
    ∀ r ∈ (runWithRetry st scanId 3 [a1, a2, a3]).scans, r.id = scanId →
      r.status = .completed
      ∧ r.startedAt = some a3.startTime
      ∧ r.completedAt = some a3.endTime
      ∧ r.durationSeconds = some (a3.endTime - a3.startTime) := by
  have s1 : ∀ s : SystemState, (processScanAsync s scanId a1).2 = false := by
    intro s; simp [processScanAsync, h1]
  have s2 : ∀ s : SystemState, (processScanAsync s scanId a2).2 = false := by
    intro s; simp [processScanAsync, h2]
  have hrun : runWithRetry st scanId 3 [a1, a2, a3]
      = (processScanAsync
          (processScanAsync (processScanAsync st scanId a1).1 scanId a2).1
          scanId a3).1 := by
    simp [runWithRetry, s1, s2]
  rw [hrun]
  set M := (processScanAsync (processScanAsync st scanId a1).1 scanId a2).1
    with hM
  intro r hr hid
  have hfinal : (processScanAsync M scanId a3).1.scans
      = updateScanRecord
          (updateScanRecord M.scans scanId
            (fun s =>
              { s with
                  status := .running
                  startedAt := some a3.startTime }))
          scanId
          (fun s =>
            { s with
                status := .completed
                completedAt := some a3.endTime
                durationSeconds := some (a3.endTime - a3.startTime)
                vulnerabilitiesFound := some v.length }) := by
    simp [processScanAsync, h3]
  rw [hfinal] at hr
  obtain ⟨s, hs, hmatch, hnomatch⟩ := mem_updateScanRecord _ _ _ r hr
  by_cases hsid : s.id = scanId
  · obtain ⟨s₀, hs₀, hmatch₀, hnomatch₀⟩ := mem_updateScanRecord _ _ _ s hs
    by_cases hs₀id : s₀.id = scanId
    · have hsEq := hmatch₀ hs₀id
      have hrEq := hmatch hsid
      subst hrEq; subst hsEq
      exact ⟨rfl, rfl, rfl, rfl⟩
    · have hsEq := hnomatch₀ hs₀id
      subst hsEq
      exact absurd hsid hs₀id
  · have := hnomatch hsid
    subst this
    exact absurd hid hsid

/-- Witness for C6 (amended), instantiating the retry scenario at the
concrete attempts of the counterexample. -/
theorem retry_duration_c6_witness :
    ((⟨0, 10, .error "boom"⟩ : Attempt).engine = .error "boom")
    ∧ ((⟨100, 110, .ok []⟩ : Attempt).engine = .ok ([] : List String))
    ∧ ∀ r ∈ (runWithRetry
        ⟨[⟨"s1", "u1", "http://t", "common", "async", .queued, 0, none, none,
          none, none, none⟩], []⟩ "s1" 3
        [⟨0, 10, .error "boom"⟩, ⟨20, 30, .error "boom"⟩,
         ⟨100, 110, .ok []⟩]).scans, r.id = "s1" →
      r.status = .completed ∧ r.startedAt = some 100
      ∧ r.completedAt = some 110 ∧ r.durationSeconds = some 10 := by
  refine ⟨rfl, rfl, ?_⟩
  exact retry_duration_c6
    ⟨[⟨"s1", "u1", "http://t", "common", "async", .queued, 0, none, none,
      none, none, none⟩], []⟩ "s1"
    ⟨0, 10, .error "boom"⟩ ⟨20, 30, .error "boom"⟩ ⟨100, 110, .ok []⟩
    "boom" "boom" [] rfl rfl rfl

/-! ## C5 -/

/-- C5: evaluation at the failing input.  The admission-check call in
`create_scan` passes four positional arguments while
`check_scan_access` takes three, so every submission — whatever the
user, tier, mode or store state — raises `TypeError` at that call,
before any denial reason is produced and before any scan is persisted;
the claimed mode-check-first denial path and the persist-`queued`
success path are never reached. -/
theorem create_scan_c5_typeerror :
    createScanCallArgCount ≠ checkScanAccessParamCount
    ∧ (∀ (user : UserRec) (targetUrl scanMode executionMode : String)
        (scans : List ScanRecord) (now : Int) (newId : String),
        createScan user targetUrl scanMode executionMode scans now newId
          = .error .typeError)
    ∧ createScan ⟨"u1", "user@example.com", "free"⟩ "http://t" "common"
        "async" [] 100 "s1" = .error .typeError := by
  refine ⟨by decide, ?_, by decide⟩
  intro user targetUrl scanMode executionMode scans now newId
  rfl

/-! ## C1 -/

lemma purgeWindow_of_fresh (window now : Nat) (win : Finset Nat)
    (h : ∀ t ∈ win, (now : Int) - (window : Int) < (t : Int)) :
    purgeWindow window now win = win :=
  Finset.filter_true_of_mem (by simpa using h)

lemma purgeWindow_of_stale (window now : Nat) (win : Finset Nat)
    (h : ∀ t ∈ win, (t : Int) ≤ (now : Int) - (window : Int)) :
    purgeWindow window now win = ∅ :=
  Finset.filter_false_of_mem (by
    intro x hx
    simpa using not_lt.2 (h x hx))

/-- Invariant run of the sliding-window check: starting from a window
whose card plus the number of upcoming (strictly increasing, never
purged) requests stays within the limit, every check is admitted and the
final window is exactly the old window plus the new timestamps. -/
lemma runChecks_all_allowed (limit window : Nat) :
    ∀ (ts : List Nat) (win : Finset Nat),
      win.card + ts.length ≤ limit →
      List.Pairwise (· < ·) ts →
      (∀ t ∈ win, ∀ s ∈ ts, t < s) →
      (∀ t, (t ∈ win ∨ t ∈ ts) → ∀ s ∈ ts,
        (s : Int) - (window : Int) < (t : Int)) →
      (runChecks limit window win ts).1 = List.replicate ts.length true
      ∧ (runChecks limit window win ts).2 = win ∪ ts.toFinset := by
  intro ts
  induction ts with
  | nil =>
    intro win _ _ _ _
    exact ⟨rfl, by simp [runChecks]⟩
  | cons t ts ih =>
    intro win hcard hpair hgt hsurv
    have hpurge : purgeWindow window t win = win :=
      purgeWindow_of_fresh window t win
        (fun x hx => hsurv x (Or.inl hx) t (List.mem_cons_self t ts))
    have hcount : win.card < limit := by
      have : win.card + (ts.length + 1) ≤ limit := by simpa using hcard
      omega
    have hstep : checkRateLimit limit window win t
        = (⟨true, limit - (win.card + 1), t + window⟩, insert t win) := by
      simp [checkRateLimit, hpurge, Nat.not_le.2 hcount]
    have htnotmem : t ∉ win := fun hmem =>
      lt_irrefl t (hgt t hmem t (List.mem_cons_self t ts))
    have hhead : ∀ s ∈ ts, t < s :=
      fun s hs => (List.pairwise_cons.1 hpair).1 s hs
    have hcard₂ : (insert t win).card + ts.length ≤ limit := by
      rw [Finset.card_insert_of_not_mem htnotmem]
      have : win.card + (ts.length + 1) ≤ limit := by simpa using hcard
      omega
    have hgt₂ : ∀ x ∈ insert t win, ∀ s ∈ ts, x < s := by
      intro x hx s hs
      rcases Finset.mem_insert.1 hx with rfl | hx
      · exact hhead s hs
      · exact lt_trans (hgt x hx t (List.mem_cons_self t ts)) (hhead s hs)
    have hsurv₂ : ∀ x, (x ∈ insert t win ∨ x ∈ ts) → ∀ s ∈ ts,
        (s : Int) - (window : Int) < (x : Int) := by
      intro x hx s hs
      have hx₂ : x ∈ win ∨ x ∈ t :: ts := by
        rcases hx with hx | hx
        · rcases Finset.mem_insert.1 hx with rfl | hm
          · exact Or.inr (List.mem_cons_self x ts)
          · exact Or.inl hm
        · exact Or.inr (List.mem_cons_of_mem t hx)
      exact hsurv x hx₂ s (List.mem_cons_of_mem t hs)
    obtain ⟨ih₁, ih₂⟩ :=
      ih (insert t win) hcard₂ (List.pairwise_cons.1 hpair).2 hgt₂ hsurv₂
    constructor
    · show (checkRateLimit limit window win t).1.allowed
          :: (runChecks limit window (checkRateLimit limit window win t).2 ts).1
        = List.replicate (t :: ts).length true
      rw [hstep]
      simp only [List.length_cons, List.replicate_succ]
      exact congrArg (true :: ·) ih₁
    · show (runChecks limit window (checkRateLimit limit window win t).2 ts).2
        = win ∪ (t :: ts).toFinset
      rw [hstep]
      simp only [ih₂]
      rw [List.toFinset_cons, Finset.insert_union, Finset.union_insert]

/-- C1 counterexample: with the free tier's finite pair
`(limit, window) = (100, 3600)`, one hundred requests all arriving at
`t = 5` are all admitted, and the next request in the same window (again
at `t = 5`) is still allowed — not denied — because the store records
the sorted-set member `str(now)`, so same-second admissions collapse into
a single recorded timestamp. -/
theorem rate_limit_c1_counterexample :
    rateLimitFor (lowerStr "free") = some (100, 3600)
    ∧ (runChecks 100 3600 ∅ (List.replicate 100 5)).1
        = List.replicate 100 true
    ∧ (checkRateLimit 100 3600
        (runChecks 100 3600 ∅ (List.replicate 100 5)).2 5).1.allowed = true := by
  decide

/-- C1 (amended): for every tier with a finite `(limit, window)` pair,
the quota check purges the stale part of the window, then denies when the
surviving count reaches the limit with `resetAt` the oldest surviving
timestamp plus the window, and otherwise records `now` and allows with
`remaining = limit - count - 1`; consequently, after `limit` admitted
requests at strictly increasing timestamps inside one window the next
request in the same window is denied, and once the window has elapsed
past all of them admission resumes.  (Requests sharing a second collapse
into one recorded timestamp, so `limit` same-second admissions do not
exhaust the quota.) -/
theorem rate_limit_c1 (tier : String) (limit window : Nat)
    (hfin : rateLimitFor (lowerStr tier) = some (limit, window)) :
    (∀ win now, checkRateLimitTier tier win now
        = checkRateLimit limit window win now)
    ∧ (∀ win now, limit ≤ (purgeWindow window now win).card →
        (checkRateLimit limit window win now).1.allowed = false
        ∧ (checkRateLimit limit window win now).2 = purgeWindow window now win
        ∧ ∀ h : (purgeWindow window now win).Nonempty,
            (checkRateLimit limit window win now).1.resetTime
              = (purgeWindow window now win).min' h + window)
    ∧ (∀ win now, (purgeWindow window now win).card < limit →
        (checkRateLimit limit window win now).1.allowed = true
        ∧ (checkRateLimit limit window win now).1.remaining
            = limit - ((purgeWindow window now win).card + 1)
        ∧ (checkRateLimit limit window win now).2
            = insert now (purgeWindow window now win))
    ∧ (∀ ts : List Nat, ts.length = limit → List.Pairwise (· < ·) ts →
        (∀ t ∈ ts, ∀ s ∈ ts, (s : Int) - (window : Int) < (t : Int)) →
        (runChecks limit window ∅ ts).1 = List.replicate limit true
        ∧ (∀ next : Nat, (∀ t ∈ ts, (next : Int) - (window : Int) < (t : Int)) →
            (checkRateLimit limit window
              (runChecks limit window ∅ ts).2 next).1.allowed = false)
        ∧ (0 < limit → ∀ later : Nat,
            (∀ t ∈ ts, (t : Int) ≤ (later : Int) - (window : Int)) →
            (checkRateLimit limit window
              (runChecks limit window ∅ ts).2 later).1.allowed = true)) := by
  refine ⟨?_, ?_, ?_, ?_⟩
  · intro win now
    simp [checkRateLimitTier, hfin]
  · intro win now hge
    refine ⟨by simp [checkRateLimit, hge], by simp [checkRateLimit, hge], ?_⟩
    intro h
    simp [checkRateLimit, hge, dif_pos h]
  · intro win now hlt
    refine ⟨?_, ?_, ?_⟩ <;> simp [checkRateLimit, Nat.not_le.2 hlt]
  · intro ts hlen hpair hspan
    have hnodup : ts.Nodup := hpair.imp ne_of_lt
    obtain ⟨hflags, hfinal⟩ := runChecks_all_allowed limit window ts ∅
      (by simp [hlen]) hpair (by simp)
      (by
        intro t ht s hs
        rcases ht with ht | ht
        · exact absurd ht (Finset.not_mem_empty t)
        · exact hspan t ht s hs)
    have hfinal₂ : (runChecks limit window ∅ ts).2 = ts.toFinset := by
      rw [hfinal]; simp
    have hmem : ∀ x ∈ ts.toFinset, x ∈ ts := fun x hx => List.mem_toFinset.1 hx
    have hcardfin : ts.toFinset.card = limit := by
      rw [List.toFinset_card_of_nodup hnodup, hlen]
    refine ⟨by rw [hflags, hlen], ?_, ?_⟩
    · intro next hnext
      have hpurge : purgeWindow window next ts.toFinset = ts.toFinset :=
        purgeWindow_of_fresh window next ts.toFinset
          (fun x hx => hnext x (hmem x hx))
      rw [hfinal₂]
      simp [checkRateLimit, hpurge, hcardfin]
    · intro hpos later hlater
      have hpurge : purgeWindow window later ts.toFinset = ∅ :=
        purgeWindow_of_stale window later ts.toFinset
          (fun x hx => hlater x (hmem x hx))
      rw [hfinal₂]
      have hne : limit ≠ 0 := Nat.pos_iff_ne_zero.1 hpos
      simp [checkRateLimit, hpurge, hne]

/-- Witness for C1 (amended) on the free tier: one hundred requests at
`t = 0, …, 99` are all admitted, request 101 at `t = 100` (inside the
3600-second window) is denied, and a request at `t = 5000` (window
elapsed) is allowed again. -/
theorem rate_limit_c1_witness :
    rateLimitFor (lowerStr "free") = some (100, 3600)
    ∧ (runChecks 100 3600 ∅ (List.range 100)).1 = List.replicate 100 true
    ∧ (checkRateLimit 100 3600
        (runChecks 100 3600 ∅ (List.range 100)).2 100).1.allowed = false
    ∧ (checkRateLimit 100 3600
        (runChecks 100 3600 ∅ (List.range 100)).2 5000).1.allowed = true := by
  have hspan : ∀ t ∈ List.range 100, ∀ s ∈ List.range 100,
      (s : Int) - (3600 : Nat) < (t : Int) := by
    intro t ht s hs
    have ht₂ : t < 100 := List.mem_range.1 ht
    have hs₂ : s < 100 := List.mem_range.1 hs
    push_cast
    omega
  have hnext : ∀ t ∈ List.range 100, ((100 : Nat) : Int) - (3600 : Nat) < (t : Int) := by
    intro t ht
    have ht₂ : t < 100 := List.mem_range.1 ht
    push_cast
    omega
  have hlater : ∀ t ∈ List.range 100, (t : Int) ≤ ((5000 : Nat) : Int) - (3600 : Nat) := by
    intro t ht
    have ht₂ : t < 100 := List.mem_range.1 ht
    push_cast
    omega
  have h := (rate_limit_c1 "free" 100 3600 (by decide)).2.2.2
    (List.range 100) (by simp) (List.pairwise_lt_range 100) hspan
  exact ⟨by decide, h.1, h.2.1 100 hnext, h.2.2 (by decide) 5000 hlater⟩

end Sentry
